import Mathlib

/-
  Verification development for the HackNu face-verification core
  (backend/faceid: simple_face_service.py, liveness_detection.py, utils.py).

  Machine floats are modelled as exact numbers: rational-valued pixel
  arithmetic is carried out in ℚ, and the only genuinely irrational
  operation of the code (np.linalg.norm, a square root) is modelled over ℝ.
  OpenCV / numpy black boxes (cvtColor, resize, detectMultiScale, Laplacian,
  FFT, image cropping) are parameters of the model; all arithmetic the
  repository itself performs is translated definitionally.
-/

namespace FaceId

/-! ## utils.py : numeric helpers over real vectors -/

/-- Sum of squares of a real vector (`np.linalg.norm(v)**2`). -/
def sumSq (v : List ℝ) : ℝ :=
  (v.map (fun x => x ^ 2)).sum

/-- `np.linalg.norm` : Euclidean norm of a vector. -/
noncomputable def l2norm (v : List ℝ) : ℝ :=
  Real.sqrt (sumSq v)

/-- `utils.normalize_embedding` : L2 normalization; a zero-norm vector is
returned unchanged (no division by zero). -/
noncomputable def normalize_embedding (v : List ℝ) : List ℝ :=
  if l2norm v = 0 then v else v.map (fun x => x / l2norm v)

/-- `np.dot` on two vectors. -/
def dotL (a b : List ℝ) : ℝ :=
  ((a.zip b).map (fun p => p.1 * p.2)).sum

/-- The float32 vector corresponding to an exact rational descriptor. -/
def ratVec (v : List ℚ) : List ℝ := v.map Rat.cast

/-- `np.clip(x, 0.0, 1.0)`. -/
noncomputable def clip01 (x : ℝ) : ℝ :=
  min (max x 0) 1

/-- `utils.cosine_similarity` : both vectors are re-normalized, dotted, and
the result is clipped into [0, 1]. -/
noncomputable def cosine_similarity (a b : List ℝ) : ℝ :=
  clip01 (dotL (normalize_embedding a) (normalize_embedding b))

/-! ## Rational statistics helpers (`np.mean`, `np.var` on exact values) -/

/-- `np.mean` of a list of rationals (0 on the empty list, where numpy
would produce NaN; no claim depends on the empty case). -/
def meanQ (l : List ℚ) : ℚ :=
  l.sum / l.length

/-- `np.var` (population variance, ddof = 0). -/
def varQ (l : List ℚ) : ℚ :=
  ((l.map (fun x => (x - meanQ l) ^ 2)).sum) / l.length

/-! ## Grayscale images and Local Binary Patterns

A grayscale frame is a matrix of natural-number intensities given by its
dimensions and a pixel function (out-of-range indices are never read by the
definitions below for the index ranges the code uses). -/

/-- A grayscale image (`np.ndarray` of shape `(rows, cols)`, uint8 values). -/
structure GrayImg where
  rows : ℕ
  cols : ℕ
  pix : ℕ → ℕ → ℕ

/-- One LBP code: the center pixel at `(i, j)` compared with its 8 neighbors
in the fixed order of `_compute_lbp` (bit set when neighbor ≥ center). -/
def lbpCode (pix : ℕ → ℕ → ℕ) (i j : ℕ) : ℕ :=
  (if pix (i-1) (j-1) ≥ pix i j then 1 else 0)
  + (if pix (i-1) j ≥ pix i j then 2 else 0)
  + (if pix (i-1) (j+1) ≥ pix i j then 4 else 0)
  + (if pix i (j+1) ≥ pix i j then 8 else 0)
  + (if pix (i+1) (j+1) ≥ pix i j then 16 else 0)
  + (if pix (i+1) j ≥ pix i j then 32 else 0)
  + (if pix (i+1) (j-1) ≥ pix i j then 64 else 0)
  + (if pix i (j-1) ≥ pix i j then 128 else 0)

/-- The `(rows-2) × (cols-2)` LBP code map of `_compute_lbp`, flattened in
row-major order (interior pixels only, radius 1). -/
def lbpList (pix : ℕ → ℕ → ℕ) (rows cols : ℕ) : List ℕ :=
  (List.range (rows - 2)).flatMap (fun a =>
    (List.range (cols - 2)).map (fun b => lbpCode pix (a + 1) (b + 1)))

/-! ## liveness_detection.py -/

/-- Liveness verdicts (`schemas.LivenessEnum`). -/
inductive LivenessEnum where
  | LIVE | SPOOF | UNKNOWN
deriving DecidableEq, Repr

/-- Details dict of `_check_single_frame`. -/
structure SingleDetails where
  textureScore : ℚ
  frequencyScore : ℚ
  combinedScore : ℚ
deriving DecidableEq, Repr

/-- Details dict of `_check_multi_frame`. -/
structure MultiDetails where
  motionScore : ℚ
  textureScore : ℚ
  varianceScore : ℚ
  combinedScore : ℚ
  numFrames : ℕ
deriving DecidableEq, Repr

/-- The details dict returned with a liveness verdict. -/
inductive LivenessDetails where
  | single (d : SingleDetails)
  | multi (d : MultiDetails)
deriving DecidableEq, Repr

/-- Unhandled Python exceptions the modelled code can raise. -/
inductive PyErr where
  | indexError
deriving DecidableEq, Repr

/-- `LIVENESS_TEXTURE_THRESHOLD` (config.py). -/
def LIVENESS_TEXTURE_THRESHOLD : ℚ := 0.3

/-- `LIVENESS_MIN_FRAMES` (config.py). -/
def LIVENESS_MIN_FRAMES : ℕ := 5

/-- `_analyze_texture` : LBP variance normalized by 500 and clamped to 1. -/
def analyzeTexture (g : GrayImg) : ℚ :=
  min (varQ ((lbpList g.pix g.rows g.cols).map (fun n => (n : ℚ))) / 500) 1

/-- `np.mean(cv2.absdiff(a, b)) / 255.0` : mean absolute pixel difference of
two equally-shaped grayscale frames, normalized into [0, 1]. -/
def meanAbsDiff (a b : GrayImg) : ℚ :=
  (((List.range a.rows).flatMap (fun i =>
      (List.range a.cols).map (fun j =>
        ((Int.natAbs ((a.pix i j : ℤ) - (b.pix i j : ℤ))) : ℚ)))).sum
    / (a.rows * a.cols)) / 255

/-- `_calculate_motion_score` : mean absolute inter-frame difference,
normalized by 255, averaged over consecutive pairs, then remapped (too
static → toward 0, moderate → 1, excessive → decays to a floor of 0.5). -/
def motionScore (gs : List GrayImg) : ℚ :=
  if gs.length < 2 then 0
  else
    let totalMotion := ((gs.tail.zip gs).map (fun p => meanAbsDiff p.1 p.2)).sum
    let avgMotion := totalMotion / ((gs.length : ℚ) - 1)
    if avgMotion < 0.01 then avgMotion / 0.01
    else if avgMotion < 0.1 then 1
    else max 0.5 (1 - (avgMotion - 0.1) / 0.2)

/-- `_calculate_temporal_variance` : per-pixel variance across the frame
stack, averaged over pixels, normalized by 10, clamped to 1. -/
def temporalVariance (gs : List GrayImg) : ℚ :=
  if gs.length < 2 then 0
  else
    match gs with
    | [] => 0
    | g :: _ =>
      let pixelVars := (List.range g.rows).flatMap (fun i =>
        (List.range g.cols).map (fun j =>
          varQ (gs.map (fun f => ((f.pix i j : ℚ))))))
      min (meanQ pixelVars / 10) 1

/-- `_check_single_frame` : texture + frequency analysis on one grayscale
frame.  The FFT-based `_analyze_frequency` is an opaque numeric subroutine
of the model, supplied as the function argument `freqScore`. -/
def checkSingleFrame (freqScore : GrayImg → ℚ) (g : GrayImg) :
    LivenessEnum × LivenessDetails :=
  let textureScore := analyzeTexture g
  let frequencyScore := freqScore g
  let combinedScore := (textureScore + frequencyScore) / 2
  let d := LivenessDetails.single ⟨textureScore, frequencyScore, combinedScore⟩
  if combinedScore > LIVENESS_TEXTURE_THRESHOLD then (LivenessEnum.LIVE, d)
  else if combinedScore < LIVENESS_TEXTURE_THRESHOLD * 0.6 then (LivenessEnum.SPOOF, d)
  else (LivenessEnum.UNKNOWN, d)

/-- `_check_multi_frame` : with fewer than `LIVENESS_MIN_FRAMES` frames it
falls back to the single-frame check on `frames[0]`, which raises
`IndexError` when the list is empty. -/
def checkMultiFrame (freqScore : GrayImg → ℚ) (gs : List GrayImg) :
    Except PyErr (LivenessEnum × LivenessDetails) :=
  if gs.length < LIVENESS_MIN_FRAMES then
    match gs with
    | [] => .error .indexError
    | g :: _ => .ok (checkSingleFrame freqScore g)
  else
    match gs with
    | [] => .error .indexError
    | g :: _ =>
      let motion := motionScore gs
      let texture := analyzeTexture g
      let variance := temporalVariance gs
      let combinedScore := motion * 0.5 + texture * 0.3 + variance * 0.2
      let d := LivenessDetails.multi ⟨motion, texture, variance, combinedScore, gs.length⟩
      if combinedScore > 0.5 then .ok (LivenessEnum.LIVE, d)
      else if combinedScore < 0.3 then .ok (LivenessEnum.SPOOF, d)
      else .ok (LivenessEnum.UNKNOWN, d)

/-! ## Color images and the opaque OpenCV operations

A color image is opaque to the model: every pixel-level observation the code
makes of it goes through an OpenCV call (`cvtColor`, `resize`,
`detectMultiScale`, crop slicing, quality metrics), which the model carries
as explicit function parameters. -/

/-- An opaque color image (`np.ndarray` in BGR layout). -/
structure Image where
  raw : ℕ
deriving DecidableEq, Repr

/-- The OpenCV conversions used by the liveness detector:
`cv2.cvtColor(..., COLOR_BGR2GRAY)` and the FFT magnitude analysis of
`_analyze_frequency`. -/
structure LivenessParams where
  toGray : Image → GrayImg
  freqScore : GrayImg → ℚ

/-- `LivenessDetector.check_liveness` : single-frame mode exactly when the
input has length 1, multi-frame mode otherwise (including length 0, where
the multi-frame fallback indexes `frames[0]` and raises `IndexError`). -/
def checkLiveness (L : LivenessParams) (frames : List Image) :
    Except PyErr (LivenessEnum × LivenessDetails) :=
  match frames with
  | [f] => .ok (checkSingleFrame L.freqScore (L.toGray f))
  | fs => checkMultiFrame L.freqScore (fs.map L.toGray)

/-! ## simple_face_service.py : the feature extractor -/

/-- The fixed 128×128 grayscale canvas produced by
`cv2.resize(face_region, (128, 128))` followed by `cv2.cvtColor` : a uint8
matrix of exactly that shape. -/
def Canvas : Type := Fin 128 → Fin 128 → Fin 256

/-- View of a canvas as an unbounded pixel function (indices used by the
code are always in range, so the fallback value is never observed). -/
def canvasPix (c : Canvas) (i j : ℕ) : ℕ :=
  if h : i < 128 ∧ j < 128 then (c ⟨i, h.1⟩ ⟨j, h.2⟩ : ℕ) else 0

/-- All 16384 canvas pixel values, row-major. -/
def canvasPixList (c : Canvas) : List ℕ :=
  (List.range 128).flatMap (fun i => (List.range 128).map (fun j => canvasPix c i j))

/-- `EMBEDDING_DIM` fixed by `_create_embedding`. -/
def EMBEDDING_DIM : ℕ := 512

/-- L1 normalization of a histogram : `hist / (np.sum(hist) + 1e-6)`. -/
def histNormalized (counts : List ℚ) : List ℚ :=
  counts.map (fun x => x / (counts.sum + 1 / 1000000))

/-- Raw 256-bin intensity histogram of the canvas (`cv2.calcHist`). -/
def intensityCounts (c : Canvas) : List ℚ :=
  (List.range 256).map (fun b => ((canvasPixList c).count b : ℚ))

/-- The L1-normalized intensity histogram. -/
def intensityHist (c : Canvas) : List ℚ :=
  histNormalized (intensityCounts c)

/-- Raw 256-bin histogram of the canvas's LBP code map. -/
def lbpCounts (c : Canvas) : List ℚ :=
  (List.range 256).map (fun b => ((lbpList (canvasPix c) 128 128).count b : ℚ))

/-- The L1-normalized LBP histogram. -/
def lbpHist (c : Canvas) : List ℚ :=
  histNormalized (lbpCounts c)

/-- `_create_embedding` : the two histograms concatenated, then right-padded
with zeros below 512 or truncated above. -/
def createEmbedding (c : Canvas) : List ℚ :=
  let features := intensityHist c ++ lbpHist c
  if features.length < EMBEDDING_DIM then
    features ++ List.replicate (EMBEDDING_DIM - features.length) 0
  else
    features.take EMBEDDING_DIM

/-! ## simple_face_service.py : detection and embedding extraction -/

/-- A bounding box `(x, y, w, h)` as returned by `detectMultiScale`. -/
structure Rect where
  x : ℕ
  y : ℕ
  w : ℕ
  h : ℕ
deriving DecidableEq, Repr

/-- `MIN_FACE_SIZE` (config.py). -/
def MIN_FACE_SIZE : ℕ := 80

/-- `MAX_FACES_PER_IMAGE` (config.py). -/
def MAX_FACES_PER_IMAGE : ℕ := 10

/-- One face dict built by `detect_faces`. -/
structure Face where
  bbox : Rect
  confidence : ℚ
  embedding : List ℚ

/-- The OpenCV / numpy black boxes of `SimpleFaceRecognitionService` (with
the Haar cascade loaded): `detectMultiScale` rectangles, array slicing
`image[y:y+h, x:x+w]`, the resize+grayscale canvas of `_create_embedding`,
and the two quality diagnostics of utils.py, whose internals (mean/std and
a Laplacian filter) are not needed by any claim. -/
structure Pipeline where
  cascadeRects : Image → List Rect
  crop : Image → Rect → Image
  toGray128 : Image → Canvas
  lighting : Image → ℚ
  blur : Image → ℚ

/-- `detect_faces` : take at most `MAX_FACES_PER_IMAGE` rectangles, skip
those below `MIN_FACE_SIZE`, and give every kept face the constant
confidence 0.85 together with its descriptor. -/
def detectFaces (P : Pipeline) (img : Image) : List Face :=
  (((P.cascadeRects img).take MAX_FACES_PER_IMAGE).filter
      (fun r => !(r.w < MIN_FACE_SIZE || r.h < MIN_FACE_SIZE))).map
    (fun r => { bbox := r, confidence := 0.85,
                embedding := createEmbedding (P.toGray128 (P.crop img r)) })

/-- Python's `max(faces, key=lambda f: f['confidence'])` : the FIRST face
attaining the maximal confidence (later faces replace only on strict `>`). -/
def maxByConfidence (f : Face) (fs : List Face) : Face :=
  fs.foldl (fun best g => if g.confidence > best.confidence then g else best) f

/-- Quality metadata dict returned by `extract_embedding`. -/
structure Meta where
  bbox : Rect
  confidence : ℚ
  lightingScore : ℚ
  blurScore : ℚ
  embeddingNorm : ℝ

/-- `extract_embedding` : `None` when no face is detected; otherwise the
L2-normalized descriptor of the highest-confidence face plus metadata. -/
noncomputable def extractEmbedding (P : Pipeline) (img : Image) :
    Option (List ℝ × Meta) :=
  match detectFaces P img with
  | [] => none
  | f :: fs =>
    let best := maxByConfidence f fs
    let embedding := normalize_embedding (ratVec best.embedding)
    let region := P.crop img best.bbox
    some (embedding,
      { bbox := best.bbox, confidence := best.confidence,
        lightingScore := P.lighting region, blurScore := P.blur region,
        embeddingNorm := l2norm embedding })

/-! ## models.py : the persisted records

The binary blob stored for a vector round-trips through
`embedding_to_binary` / `binary_to_embedding` (`tobytes` / `frombuffer`),
so a stored embedding is modelled directly as the decoded vector.  The
surrogate integer primary key, the timestamp columns, the JSON metadata
blobs (`person_metadata`, `quality_metrics`) and the audit-only
`VerificationAttempt` table are pure pass-through data with no behavioral
role in the pipeline and are omitted. -/

/-- One `FaceEmbedding` row. -/
structure EmbRec where
  embedding : List ℝ
  embeddingNorm : ℝ
  photoId : String

/-- One `Person` row together with its `embeddings` relationship. -/
structure Person where
  idPerson : String
  name : String
  photoCount : ℕ
  isActive : Bool
  embeddings : List EmbRec

/-- The persons table, in query order. -/
abbrev DB : Type := List Person

/-! ## simple_face_service.py : `_search_database` -/

/-- `THRESHOLD_HIGH_CONFIDENCE` (config.py). -/
def THRESHOLD_HIGH_CONFIDENCE : ℚ := 0.40

/-- `THRESHOLD_MEDIUM_CONFIDENCE` (config.py). -/
def THRESHOLD_MEDIUM_CONFIDENCE : ℚ := 0.30

/-- Dimension fix of `_search_database` : a reference vector whose length
differs from the probe's is truncated or zero-padded to match. -/
def fixDim (probeLen : ℕ) (ref : List ℝ) : List ℝ :=
  if ref.length ≠ probeLen then
    if ref.length > probeLen then ref.take probeLen
    else ref ++ List.replicate (probeLen - ref.length) 0
  else ref

/-- Similarity of the probe against one stored reference vector, after the
dimension fix. -/
noncomputable def simToRef (probe : List ℝ) (ref : List ℝ) : ℝ :=
  cosine_similarity probe (fixDim probe.length ref)

/-- Mutable loop state of `_search_database` :
`(best_match, best_similarity, best_photo_id)`. -/
structure SearchState where
  bestMatch : Option Person
  bestSimilarity : ℝ
  bestPhotoId : Option String

/-- Inner loop of `_search_database` over one person's embeddings : the
running best is replaced only on strictly greater similarity. -/
noncomputable def searchInner (probe : List ℝ) (person : Person)
    (embs : List EmbRec) (st : SearchState) : SearchState :=
  embs.foldl
    (fun st er =>
      let s := simToRef probe er.embedding
      if s > st.bestSimilarity then ⟨some person, s, some er.photoId⟩ else st)
    st

/-- Outer loop of `_search_database` over the active persons. -/
noncomputable def searchOuter (probe : List ℝ) (persons : List Person)
    (st : SearchState) : SearchState :=
  persons.foldl (fun st p => searchInner probe p p.embeddings st) st

/-- `_search_database` : `None` when the active-person query is empty,
otherwise the loop result — which is itself `None` when no embedding was
seen (`best_match` still unset). -/
noncomputable def searchDatabase (probe : List ℝ) (db : DB) :
    Option (Person × ℝ × Option String) :=
  match db.filter (fun p => p.isActive) with
  | [] => none
  | persons =>
    let st := searchOuter probe persons ⟨none, -1, none⟩
    match st.bestMatch with
    | some person => some (person, st.bestSimilarity, st.bestPhotoId)
    | none => none

/-- The (person, embedding) candidate pairs of a person list, in first-seen
(iteration) order. -/
def pairsOf (persons : List Person) : List (Person × EmbRec) :=
  persons.flatMap (fun p => p.embeddings.map (fun er => (p, er)))

/-- Modelled from the spec (§4.3 MatchEngine) : the pair achieving the
single maximum similarity, ties broken by first-seen order — an earlier
pair is kept unless a later one is strictly better; `None` on no pairs. -/
noncomputable def bestOfPairs (probe : List ℝ) :
    List (Person × EmbRec) → Option (Person × ℝ × Option String)
  | [] => none
  | (p, er) :: rest =>
    let s := simToRef probe er.embedding
    match bestOfPairs probe rest with
    | none => some (p, s, some er.photoId)
    | some (p', s', pid') =>
      if s' > s then some (p', s', pid') else some (p, s, some er.photoId)

/-- Modelled from the spec (§4.3 MatchEngine), for comparison with
`searchDatabase` : `None` when the candidate (person, embedding) pair list
is empty; otherwise the first-seen maximum-similarity pair. -/
noncomputable def findBestMatchSpec (probe : List ℝ) (persons : List Person) :
    Option (Person × ℝ × Option String) :=
  bestOfPairs probe (pairsOf persons)

/-- One iteration of the `_search_database` loop, viewed on a candidate
pair. -/
noncomputable def stepPair (probe : List ℝ) (st : SearchState)
    (pr : Person × EmbRec) : SearchState :=
  if simToRef probe pr.2.embedding > st.bestSimilarity
  then ⟨some pr.1, simToRef probe pr.2.embedding, some pr.2.photoId⟩ else st

/-! ## simple_face_service.py : `enroll_person`

The SQLAlchemy session is modelled by threading the persons table through
the call: a raised error leaves the caller's table untouched, a committed
enrollment returns the extended table. -/

/-- The `ValueError`s `enroll_person` raises, in source order. -/
inductive EnrollErr where
  | noImages        -- "Нужно хотя бы одно изображение"
  | duplicatePerson -- "Человек {id} уже зарегистрирован"
  | noFaces         -- "Не найдено лиц"
deriving DecidableEq, Repr

/-- Success payload of `enroll_person` (message and timestamp omitted). -/
structure EnrollResult where
  success : Bool
  idPerson : String
  name : String
  photoCount : ℕ
deriving DecidableEq, Repr

/-- The embedding rows built by the enrollment loop : images are enumerated,
ones with no detected face are skipped, and the photo id records the
original image index. -/
noncomputable def enrollEmbeddings (P : Pipeline) (images : List Image)
    (idPerson : String) : List EmbRec :=
  images.enum.filterMap (fun p =>
    (extractEmbedding P p.2).map (fun r =>
      { embedding := r.1, embeddingNorm := l2norm r.1,
        photoId := idPerson ++ "_photo_" ++ toString p.1 }))

/-- The `Person` row a successful enrollment commits. -/
noncomputable def enrolledPersonOf (P : Pipeline) (images : List Image)
    (idPerson name : String) : Person :=
  { idPerson := idPerson, name := name,
    photoCount := (enrollEmbeddings P images idPerson).length,
    isActive := true, embeddings := enrollEmbeddings P images idPerson }

/-- `enroll_person` : raises on an empty image list; raises
`duplicatePerson` when ANY existing row (active or not) carries the id —
the query filters only on `id_person`; raises `noFaces` when no image
yields a face; otherwise commits the new person and embedding rows. -/
noncomputable def enrollPerson (P : Pipeline) (images : List Image)
    (idPerson name : String) (db : DB) : Except EnrollErr (EnrollResult × DB) :=
  match images with
  | [] => .error .noImages
  | _ =>
    if db.any (fun p => p.idPerson == idPerson) then .error .duplicatePerson
    else
      match enrollEmbeddings P images idPerson with
      | [] => .error .noFaces
      | embs =>
        .ok ({ success := true, idPerson := idPerson, name := name,
               photoCount := embs.length },
             db ++ [enrolledPersonOf P images idPerson name])

/-! ## simple_face_service.py : `verify_face` -/

/-- Verification verdicts (`schemas.VerdictEnum`). -/
inductive VerdictEnum where
  | MATCH | POSSIBLE_MATCH | NOT_FOUND | SPOOF | NO_FACE_DETECTED
deriving DecidableEq, Repr

/-- The response dict of `_create_response` (the deterministic explanation
string, the ISO timestamp and the redundant `candidate_stats` copy of the
candidate fields are omitted; every field a claim mentions is kept). -/
structure Response where
  verdict : VerdictEnum
  idCandidate : Option String
  nameCandidate : Option String
  similarity : Option ℝ
  thresholdUsed : Option ℚ
  probeFaceBox : Rect
  probeEmbeddingNorm : ℝ
  livenessValue : LivenessEnum
  detectorConfidence : ℚ
  lightingScore : ℚ
  motionBlurScore : ℚ
  livenessDetails : Option LivenessDetails

/-- `_create_response`. -/
def createResponse (verdict : VerdictEnum) (liveness : LivenessEnum)
    (probeMeta : Option Meta)
    (candidate : Option (String × String × ℝ × Option String))
    (thresholdUsed : Option ℚ) (details : Option LivenessDetails) : Response :=
  { verdict := verdict,
    idCandidate := candidate.map (fun c => c.1),
    nameCandidate := candidate.map (fun c => c.2.1),
    similarity := candidate.map (fun c => c.2.2.1),
    thresholdUsed := thresholdUsed,
    probeFaceBox := match probeMeta with | some m => m.bbox | none => ⟨0, 0, 0, 0⟩,
    probeEmbeddingNorm := match probeMeta with | some m => m.embeddingNorm | none => 0,
    livenessValue := liveness,
    detectorConfidence := match probeMeta with | some m => m.confidence | none => 0,
    lightingScore := match probeMeta with | some m => m.lightingScore | none => 0,
    motionBlurScore := match probeMeta with | some m => m.blurScore | none => 0,
    livenessDetails := details }

/-- A verification outcome : the response plus instrumentation recording
whether the feature-extraction and database-search stages executed. -/
structure VerifyOutcome where
  response : Response
  extractionPerformed : Bool
  searchPerformed : Bool

/-- The frame list handed to the liveness detector by `verify_face`
(`frames if frames and len(frames) > 1 else [image]`). -/
def livenessInput (img : Image) (frames : Option (List Image)) : List Image :=
  match frames with
  | some fs => if 1 < fs.length then fs else [img]
  | none => [img]

/-- The tail of `verify_face` after the liveness gate : extraction, search
and the threshold classification of the best similarity. -/
noncomputable def afterLiveness (P : Pipeline) (img : Image) (db : DB)
    (lv : LivenessEnum) (ld : Option LivenessDetails) : VerifyOutcome :=
  match extractEmbedding P img with
  | none =>
    ⟨createResponse .NO_FACE_DETECTED lv none none none ld, true, false⟩
  | some (probe, meta) =>
    match searchDatabase probe db with
    | none =>
      ⟨createResponse .NOT_FOUND lv (some meta) none none ld, true, true⟩
    | some (person, bestSimilarity, bestPhotoId) =>
      let verdict :=
        if bestSimilarity ≥ (THRESHOLD_HIGH_CONFIDENCE : ℝ) then VerdictEnum.MATCH
        else if bestSimilarity ≥ (THRESHOLD_MEDIUM_CONFIDENCE : ℝ) then VerdictEnum.POSSIBLE_MATCH
        else VerdictEnum.NOT_FOUND
      let threshold :=
        if verdict = VerdictEnum.MATCH then THRESHOLD_HIGH_CONFIDENCE
        else THRESHOLD_MEDIUM_CONFIDENCE
      ⟨createResponse verdict lv (some meta)
          (some (person.idPerson, person.name, bestSimilarity, bestPhotoId))
          (some threshold) ld, true, true⟩

/-- `verify_face` : optional liveness gate with the spoof short-circuit,
then extraction, then database search. -/
noncomputable def verifyFace (P : Pipeline) (L : LivenessParams) (img : Image)
    (frames : Option (List Image)) (db : DB) (check : Bool) :
    Except PyErr VerifyOutcome :=
  if check then
    match checkLiveness L (livenessInput img frames) with
    | .error e => .error e
    | .ok (lv, ld) =>
      if lv = LivenessEnum.SPOOF then
        .ok ⟨createResponse .SPOOF lv none none none (some ld), false, false⟩
      else .ok (afterLiveness P img db lv (some ld))
  else .ok (afterLiveness P img db .UNKNOWN none)

/-! ## Observation helpers on results -/

/-- Verdict of an (exception-free) verification call. -/
noncomputable def verdictOf (r : Except PyErr VerifyOutcome) : Option VerdictEnum :=
  r.toOption.map (fun o => o.response.verdict)

/-- Candidate id field of a verification call. -/
noncomputable def idCandidateOf (r : Except PyErr VerifyOutcome) : Option (Option String) :=
  r.toOption.map (fun o => o.response.idCandidate)

/-- Similarity field of a verification call. -/
noncomputable def similarityOf (r : Except PyErr VerifyOutcome) : Option (Option ℝ) :=
  r.toOption.map (fun o => o.response.similarity)

/-- Whether the feature-extraction stage ran. -/
noncomputable def extractionFlagOf (r : Except PyErr VerifyOutcome) : Option Bool :=
  r.toOption.map (fun o => o.extractionPerformed)

/-- Whether the database-search stage ran. -/
noncomputable def searchFlagOf (r : Except PyErr VerifyOutcome) : Option Bool :=
  r.toOption.map (fun o => o.searchPerformed)

/-- `diagnostics.detector_confidence` of a verification call. -/
noncomputable def detectorConfidenceOf (r : Except PyErr VerifyOutcome) : Option ℚ :=
  r.toOption.map (fun o => o.response.detectorConfidence)

/-- Verdict of a liveness check. -/
def livenessVerdictOf (r : Except PyErr (LivenessEnum × LivenessDetails)) :
    Option LivenessEnum :=
  r.toOption.map (fun p => p.1)

/-- Motion score of a multi-frame liveness result. -/
def multiMotionOf (r : Except PyErr (LivenessEnum × LivenessDetails)) : Option ℚ :=
  match r with
  | .ok (_, .multi d) => some d.motionScore
  | _ => none

/-- Temporal-variance score of a multi-frame liveness result. -/
def multiVarianceOf (r : Except PyErr (LivenessEnum × LivenessDetails)) : Option ℚ :=
  match r with
  | .ok (_, .multi d) => some d.varianceScore
  | _ => none

/-- The combined multi-frame score is at most `q`. -/
def multiCombinedLe (r : Except PyErr (LivenessEnum × LivenessDetails)) (q : ℚ) : Prop :=
  match r with
  | .ok (_, .multi d) => d.combinedScore ≤ q
  | _ => False

/-- New persons table after an enrollment call (`None` when it raised). -/
noncomputable def enrollDbOf (r : Except EnrollErr (EnrollResult × DB)) : Option DB :=
  r.toOption.map (fun p => p.2)

/-! ## Concrete instances used to exercise the theorems -/

/-- A concrete probe image. -/
def img0 : Image := ⟨0⟩

/-- A 1×1 grayscale frame : its LBP map is empty, so its texture score is 0. -/
def gray1 : GrayImg := ⟨1, 1, fun _ _ => 0⟩

/-- A 3×3 constant grayscale frame. -/
def gray3 : GrayImg := ⟨3, 3, fun _ _ => 7⟩

/-- Liveness parameters whose frequency analysis returns 0 : a single frame
then scores (0+0)/2 = 0 < 0.18 and is classified `SPOOF`. -/
def Lspoof : LivenessParams := ⟨fun _ => gray1, fun _ => 0⟩

/-- Liveness parameters whose frequency analysis returns 1 : a single frame
then scores (0+1)/2 = 0.5 > 0.3 and is classified `LIVE`. -/
def Llive : LivenessParams := ⟨fun _ => gray1, fun _ => 1⟩

/-- The constant-zero canvas. -/
def canvas0 : Canvas := fun _ _ => 0

/-- A pipeline whose detector finds exactly one 80×80 face. -/
noncomputable def Pone : Pipeline :=
  ⟨fun _ => [⟨0, 0, 80, 80⟩], fun i _ => i, fun _ => canvas0, fun _ => 0, fun _ => 0⟩

/-- A pipeline whose detector finds no face at all. -/
noncomputable def Pnone : Pipeline :=
  ⟨fun _ => [], fun i _ => i, fun _ => canvas0, fun _ => 0, fun _ => 0⟩

/-- An inactive person row carrying the external id "x". -/
def inactiveX : Person := ⟨"x", "old", 0, false, []⟩

/-- An active person row with no embedding rows at all. -/
def activeNoEmb : Person := ⟨"a", "empty", 0, true, []⟩

/-! ## Helper lemmas : histogram shapes -/

lemma length_histNormalized (counts : List ℚ) :
    (histNormalized counts).length = counts.length := by
  simp [histNormalized]

lemma length_intensityHist (c : Canvas) : (intensityHist c).length = 256 := by
  simp [intensityHist, intensityCounts, length_histNormalized]

lemma length_lbpHist (c : Canvas) : (lbpHist c).length = 256 := by
  simp [lbpHist, lbpCounts, length_histNormalized]

lemma createEmbedding_eq_append (c : Canvas) :
    createEmbedding c = intensityHist c ++ lbpHist c := by
  have hlen : (intensityHist c ++ lbpHist c).length = 512 := by
    simp [length_intensityHist, length_lbpHist]
  simp only [createEmbedding, EMBEDDING_DIM, hlen, lt_self_iff_false, if_false]
  exact List.take_of_length_le (le_of_eq hlen)

/-! ## Helper lemmas : norms and normalization -/

lemma sumSq_nonneg (v : List ℝ) : 0 ≤ sumSq v := by
  apply List.sum_nonneg
  intro x hx
  obtain ⟨y, _, rfl⟩ := List.mem_map.mp hx
  positivity

lemma le_sumSq_of_mem {v : List ℝ} {x : ℝ} (hx : x ∈ v) : x ^ 2 ≤ sumSq v := by
  apply List.single_le_sum
  · intro y hy
    obtain ⟨z, _, rfl⟩ := List.mem_map.mp hy
    positivity
  · exact List.mem_map.mpr ⟨x, hx, rfl⟩

lemma sumSq_pos_of_mem {v : List ℝ} {x : ℝ} (hx : x ∈ v) (hx0 : x ≠ 0) :
    0 < sumSq v :=
  lt_of_lt_of_le (by positivity) (le_sumSq_of_mem hx)

lemma l2norm_nonneg (v : List ℝ) : 0 ≤ l2norm v := Real.sqrt_nonneg _

lemma l2norm_eq_zero_iff (v : List ℝ) : l2norm v = 0 ↔ sumSq v = 0 := by
  rw [l2norm, Real.sqrt_eq_zero (sumSq_nonneg v)]

lemma sumSq_map_div (v : List ℝ) (c : ℝ) :
    sumSq (v.map (fun x => x / c)) = sumSq v / c ^ 2 := by
  induction v with
  | nil => simp [sumSq]
  | cons x xs ih =>
    simp only [List.map_cons, sumSq, List.sum_cons] at ih ⊢
    rw [ih, div_pow, add_div]

lemma l2norm_normalize {v : List ℝ} (h : l2norm v ≠ 0) :
    l2norm (normalize_embedding v) = 1 := by
  have hs : sumSq v ≠ 0 := fun h0 => h ((l2norm_eq_zero_iff v).mpr h0)
  rw [normalize_embedding, if_neg h, l2norm, sumSq_map_div, l2norm,
    Real.sq_sqrt (sumSq_nonneg v), div_self hs, Real.sqrt_one]

lemma normalize_of_l2norm_eq_zero {v : List ℝ} (h : l2norm v = 0) :
    normalize_embedding v = v := by
  rw [normalize_embedding, if_pos h]

lemma dotL_map_div (a : List ℝ) (c d : ℝ) : ∀ b : List ℝ,
    dotL (a.map (fun x => x / c)) (b.map (fun x => x / d)) = dotL a b / (c * d) := by
  induction a with
  | nil => intro b; simp [dotL]
  | cons x xs ih =>
    intro b
    cases b with
    | nil => simp [dotL]
    | cons y ys =>
      have ih' := ih ys
      simp only [List.map_cons, dotL, List.zip_cons_cons, List.sum_cons] at ih' ⊢
      rw [ih', div_mul_div_comm, add_div]

/-! ## Helper lemmas : positivity of the raw descriptor -/

lemma canvasPix_lt (c : Canvas) : canvasPix c 0 0 < 256 := by
  simp only [canvasPix]
  rw [dif_pos (by omega : (0:ℕ) < 128 ∧ (0:ℕ) < 128)]
  exact (c _ _).isLt

lemma canvasPix_mem_pixList (c : Canvas) : canvasPix c 0 0 ∈ canvasPixList c := by
  apply List.mem_flatMap.mpr
  exact ⟨0, List.mem_range.mpr (by omega),
    List.mem_map.mpr ⟨0, List.mem_range.mpr (by omega), rfl⟩⟩

lemma intensityCounts_sum_nonneg (c : Canvas) : 0 ≤ (intensityCounts c).sum := by
  apply List.sum_nonneg
  intro x hx
  obtain ⟨b, _, rfl⟩ := List.mem_map.mp hx
  positivity

lemma exists_pos_entry_createEmbedding (c : Canvas) :
    ∃ q ∈ createEmbedding c, 0 < q := by
  have hb : ((canvasPixList c).count (canvasPix c 0 0) : ℚ) ∈ intensityCounts c :=
    List.mem_map.mpr ⟨canvasPix c 0 0, List.mem_range.mpr (canvasPix_lt c), rfl⟩
  have hcpos : (0 : ℚ) < ((canvasPixList c).count (canvasPix c 0 0) : ℚ) := by
    have := List.count_pos_iff.mpr (canvasPix_mem_pixList c)
    exact_mod_cast this
  refine ⟨((canvasPixList c).count (canvasPix c 0 0) : ℚ)
      / ((intensityCounts c).sum + 1 / 1000000), ?_, ?_⟩
  · rw [createEmbedding_eq_append]
    apply List.mem_append_left
    rw [intensityHist, histNormalized]
    exact List.mem_map.mpr ⟨_, hb, rfl⟩
  · apply div_pos hcpos
    have := intensityCounts_sum_nonneg c
    linarith

lemma sumSq_createEmbedding_pos (c : Canvas) :
    0 < sumSq (ratVec (createEmbedding c)) := by
  obtain ⟨q, hq, hqpos⟩ := exists_pos_entry_createEmbedding c
  have hmem : (q : ℝ) ∈ ratVec (createEmbedding c) :=
    List.mem_map.mpr ⟨q, hq, rfl⟩
  have hne : (q : ℝ) ≠ 0 := by exact_mod_cast ne_of_gt hqpos
  exact sumSq_pos_of_mem hmem hne

lemma l2norm_createEmbedding_ne_zero (c : Canvas) :
    l2norm (ratVec (createEmbedding c)) ≠ 0 := by
  intro h
  exact absurd ((l2norm_eq_zero_iff _).mp h) (ne_of_gt (sumSq_createEmbedding_pos c))

/-! ## Helper lemmas : faces found by the detector -/

lemma maxByConfidence_mem : ∀ (fs : List Face) (f : Face),
    maxByConfidence f fs ∈ f :: fs := by
  intro fs
  induction fs with
  | nil => intro f; simp [maxByConfidence]
  | cons g gs ih =>
    intro f
    rw [maxByConfidence, List.foldl_cons]
    have h := ih (if g.confidence > f.confidence then g else f)
    rw [maxByConfidence] at h
    rcases List.mem_cons.mp h with h | h
    · rw [h]
      by_cases hc : g.confidence > f.confidence
      · simp [hc]
      · simp [hc]
    · exact List.mem_cons_of_mem _ (List.mem_cons_of_mem _ h)

set_option maxRecDepth 4096 in
lemma detectFaces_mem_shape {P : Pipeline} {img : Image} :
    ∀ face ∈ detectFaces P img, face.confidence = 0.85 ∧
      ∃ r : Rect, face.embedding = createEmbedding (P.toGray128 (P.crop img r)) := by
  intro face hface
  rw [detectFaces] at hface
  obtain ⟨r, _, rfl⟩ := List.mem_map.mp hface
  exact ⟨rfl, r, rfl⟩

lemma extract_meta_shape {P : Pipeline} {img : Image} {r : List ℝ × Meta}
    (h : extractEmbedding P img = some r) :
    r.2.confidence = 0.85 ∧ ∃ c : Canvas, r.1 = normalize_embedding (ratVec (createEmbedding c)) := by
  unfold extractEmbedding at h
  cases hd : detectFaces P img with
  | nil => rw [hd] at h; exact absurd h (by simp)
  | cons f fs =>
    rw [hd] at h
    have hmem : maxByConfidence f fs ∈ detectFaces P img := by
      rw [hd]; exact maxByConfidence_mem fs f
    obtain ⟨hconf, rect, hemb⟩ := detectFaces_mem_shape _ hmem
    cases h
    exact ⟨hconf, P.toGray128 (P.crop img rect), by rw [hemb]⟩

/-! ## Helper lemmas : liveness scores on static bursts -/

lemma varQ_nonneg (l : List ℚ) : 0 ≤ varQ l := by
  apply div_nonneg _ (by positivity)
  apply List.sum_nonneg
  intro x hx
  obtain ⟨y, _, rfl⟩ := List.mem_map.mp hx
  positivity

lemma varQ_of_all_eq {l : List ℚ} {v : ℚ} (h : ∀ x ∈ l, x = v) : varQ l = 0 := by
  cases l with
  | nil => simp [varQ, meanQ]
  | cons a as =>
    have hlen : ((a :: as).length : ℚ) ≠ 0 := by
      simp only [List.length_cons, Nat.cast_add, Nat.cast_one]
      positivity
    have hmean : meanQ (a :: as) = v := by
      have hrep : (a :: as) = List.replicate (a :: as).length v :=
        List.eq_replicate_iff.mpr ⟨rfl, h⟩
      rw [meanQ]
      conv_lhs => rw [hrep]
      rw [List.sum_replicate, List.length_replicate, nsmul_eq_mul]
      exact mul_div_cancel_left₀ v hlen
    have hzero : ∀ x ∈ (a :: as).map (fun x => (x - meanQ (a :: as)) ^ 2), x = 0 := by
      intro x hx
      obtain ⟨y, hy, rfl⟩ := List.mem_map.mp hx
      rw [h y hy, hmean, sub_self]
      ring
    rw [varQ, List.sum_eq_zero hzero, zero_div]

lemma meanAbsDiff_self (g : GrayImg) : meanAbsDiff g g = 0 := by
  have hzero : ∀ x ∈ (List.range g.rows).flatMap (fun i =>
      (List.range g.cols).map (fun j =>
        ((Int.natAbs ((g.pix i j : ℤ) - (g.pix i j : ℤ))) : ℚ))), x = 0 := by
    intro x hx
    obtain ⟨i, _, hx⟩ := List.mem_flatMap.mp hx
    obtain ⟨j, _, rfl⟩ := List.mem_map.mp hx
    simp
  rw [meanAbsDiff, List.sum_eq_zero hzero, zero_div, zero_div]

lemma motionScore_of_all_eq {gs : List GrayImg} {g : GrayImg}
    (h : ∀ x ∈ gs, x = g) : motionScore gs = 0 := by
  by_cases hlen : gs.length < 2
  · simp [motionScore, hlen]
  · have hzero : ∀ q ∈ (gs.tail.zip gs).map (fun p => meanAbsDiff p.1 p.2), q = 0 := by
      intro q hq
      obtain ⟨p, hp, rfl⟩ := List.mem_map.mp hq
      obtain ⟨hp1, hp2⟩ := List.of_mem_zip hp
      rw [h p.1 (List.mem_of_mem_tail hp1), h p.2 hp2, meanAbsDiff_self]
    simp only [motionScore, if_neg hlen]
    rw [List.sum_eq_zero hzero, zero_div]
    norm_num

lemma temporalVariance_of_all_eq {gs : List GrayImg} {g0 : GrayImg}
    (h : ∀ x ∈ gs, x = g0) : temporalVariance gs = 0 := by
  by_cases hlen : gs.length < 2
  · simp [temporalVariance, hlen]
  · cases gs with
    | nil => simp [temporalVariance]
    | cons a rest =>
      have hzero : ∀ q ∈ (List.range a.rows).flatMap (fun i =>
          (List.range a.cols).map (fun j =>
            varQ ((a :: rest).map (fun f => ((f.pix i j : ℚ)))))), q = 0 := by
        intro q hq
        obtain ⟨i, _, hq⟩ := List.mem_flatMap.mp hq
        obtain ⟨j, _, rfl⟩ := List.mem_map.mp hq
        apply varQ_of_all_eq (v := (g0.pix i j : ℚ))
        intro x hx
        obtain ⟨f, hf, rfl⟩ := List.mem_map.mp hx
        rw [h f hf]
      simp only [temporalVariance, if_neg hlen]
      rw [meanQ, List.sum_eq_zero hzero, zero_div, zero_div]
      norm_num

lemma analyzeTexture_nonneg (g : GrayImg) : 0 ≤ analyzeTexture g :=
  le_min (div_nonneg (varQ_nonneg _) (by norm_num)) zero_le_one

lemma analyzeTexture_le_one (g : GrayImg) : analyzeTexture g ≤ 1 :=
  min_le_right _ 1

lemma checkMultiFrame_static (freq : GrayImg → ℚ) :
    ∀ (fs : List GrayImg) (g0 : GrayImg),
    ¬ fs.length < LIVENESS_MIN_FRAMES → (∀ x ∈ fs, x = g0) →
    multiMotionOf (checkMultiFrame freq fs) = some 0 ∧
    multiVarianceOf (checkMultiFrame freq fs) = some 0 ∧
    multiCombinedLe (checkMultiFrame freq fs) (3 / 10) ∧
    (livenessVerdictOf (checkMultiFrame freq fs) = some .SPOOF ∨
     livenessVerdictOf (checkMultiFrame freq fs) = some .UNKNOWN) ∧
    livenessVerdictOf (checkMultiFrame freq fs) ≠ some .LIVE := by
  intro fs g0 hlen hall
  cases fs with
  | nil =>
    exact absurd (by simp [LIVENESS_MIN_FRAMES]) hlen
  | cons a rest =>
    have hmot : motionScore (a :: rest) = 0 := motionScore_of_all_eq hall
    have hvar : temporalVariance (a :: rest) = 0 := temporalVariance_of_all_eq hall
    have htex1 : analyzeTexture a ≤ 1 := analyzeTexture_le_one a
    simp only [checkMultiFrame, if_neg hlen, hmot, hvar]
    have hcomb : (0 : ℚ) * 0.5 + analyzeTexture a * 0.3 + 0 * 0.2
        = analyzeTexture a * 0.3 := by ring
    rw [hcomb]
    have hle : analyzeTexture a * 0.3 ≤ 3 / 10 := by nlinarith
    have hnotlive : ¬ (analyzeTexture a * 0.3 > 0.5) := by
      intro hgt
      nlinarith
    rw [if_neg hnotlive]
    by_cases hsp : analyzeTexture a * 0.3 < 0.3
    · rw [if_pos hsp]
      refine ⟨rfl, rfl, ?_, Or.inl rfl, by simp [livenessVerdictOf, Except.toOption]⟩
      exact hle
    · rw [if_neg hsp]
      refine ⟨rfl, rfl, ?_, Or.inr rfl, by simp [livenessVerdictOf, Except.toOption]⟩
      exact hle

/-! ## Claim theorems -/

/-- C5: for any input face region (any canvas content), the descriptor built
by `_create_embedding` — the 256-bin intensity histogram concatenated with
the 256-bin LBP histogram, right-padded with zeros if shorter than 512 and
truncated if longer — has length exactly 512. -/
theorem createEmbedding_length_eq_512 : ∀ c : Canvas, (createEmbedding c).length = 512 := by
  intro c
  rw [createEmbedding_eq_append]
  simp [length_intensityHist, length_lbpHist]

/-- C9: `check_liveness` called with an empty frame list takes the
multi-frame path (length 0 is not 1), falls below the minimum-frame
fallback, indexes `frames[0]` of an empty list, and raises an unhandled
`IndexError` instead of returning a (verdict, details) pair. -/
theorem checkLiveness_empty_raises :
    ∀ L : LivenessParams, checkLiveness L [] = .error .indexError := by
  intro L
  rfl

/-- C7: `cosine_similarity` always lands in [0, 1] thanks to the final
clamp, and whenever both norms are nonzero it equals the clamped
`dot(a,b) / (‖a‖·‖b‖)` (both vectors re-normalized at comparison time). -/
theorem cosine_similarity_bounds :
    (∀ a b : List ℝ, 0 ≤ cosine_similarity a b ∧ cosine_similarity a b ≤ 1) ∧
    ∀ a b : List ℝ, l2norm a ≠ 0 → l2norm b ≠ 0 →
      cosine_similarity a b = clip01 (dotL a b / (l2norm a * l2norm b)) := by
  constructor
  · intro a b
    exact ⟨le_min (le_max_right _ 0) zero_le_one, min_le_right _ 1⟩
  · intro a b ha hb
    unfold cosine_similarity normalize_embedding
    rw [if_neg ha, if_neg hb, dotL_map_div]

/-- Witness for C7 at the concrete pair ([1], [1]). -/
theorem cosine_similarity_bounds_witness :
    cosine_similarity [(1 : ℝ)] [1] =
      clip01 (dotL [(1 : ℝ)] [1] / (l2norm [(1 : ℝ)] * l2norm [(1 : ℝ)])) ∧
    0 ≤ cosine_similarity [(1 : ℝ)] [1] := by
  have h1 : l2norm [(1 : ℝ)] ≠ 0 := by
    have hs : sumSq [(1 : ℝ)] = 1 := by norm_num [sumSq]
    rw [l2norm, hs, Real.sqrt_one]
    exact one_ne_zero
  exact ⟨cosine_similarity_bounds.2 [1] [1] h1 h1,
    (cosine_similarity_bounds.1 [1] [1]).1⟩

/-- C4: `normalize_embedding` divides a vector by its own norm and returns a
zero-norm vector unchanged; consequently every embedding returned by
`extract_embedding` has norm exactly 1 (hence within the 1e-4 tolerance),
because the raw descriptor always has a strictly positive histogram entry. -/
theorem extracted_embedding_normalized :
    (∀ v : List ℝ,
      (l2norm v = 0 → normalize_embedding v = v) ∧
      (l2norm v ≠ 0 →
        normalize_embedding v = v.map (fun x => x / l2norm v) ∧
        l2norm (normalize_embedding v) = 1)) ∧
    ∀ (P : Pipeline) (img : Image),
      (extractEmbedding P img).isSome = true →
      (extractEmbedding P img).map (fun r => l2norm r.1) = some 1 := by
  constructor
  · intro v
    refine ⟨normalize_of_l2norm_eq_zero, fun h => ⟨?_, l2norm_normalize h⟩⟩
    rw [normalize_embedding, if_neg h]
  · intro P img h
    obtain ⟨r, hr⟩ := Option.isSome_iff_exists.mp h
    obtain ⟨_, c, hc⟩ := extract_meta_shape hr
    rw [hr]
    simp only [Option.map_some']
    rw [hc, l2norm_normalize (l2norm_createEmbedding_ne_zero c)]

/-- Witness for C4 : a concrete pipeline finding one face yields an
extracted embedding of norm 1, and the [3, 4] vector normalizes to norm 1. -/
theorem extracted_embedding_normalized_witness :
    (extractEmbedding Pone img0).map (fun r => l2norm r.1) = some 1 ∧
    l2norm (normalize_embedding [(3 : ℝ), 4]) = 1 := by
  constructor
  · exact extracted_embedding_normalized.2 Pone img0 rfl
  · have h34 : l2norm [(3 : ℝ), 4] ≠ 0 := by
      have hs : sumSq [(3 : ℝ), 4] = 25 := by norm_num [sumSq]
      rw [l2norm, hs]
      positivity
    exact ((extracted_embedding_normalized.1 [3, 4]).2 h34).2

/-- C6: a burst of at least `LIVENESS_MIN_FRAMES` pixel-identical frames
gets motion score 0 and temporal-variance score 0 from the multi-frame
liveness check, so its combined score 0.5·motion + 0.3·texture +
0.2·variance is at most 0.3 and the verdict is spoof or unknown,
never live. -/
theorem static_burst_never_live :
    ∀ (L : LivenessParams) (frames : List Image) (f : Image),
      LIVENESS_MIN_FRAMES ≤ frames.length →
      (∀ g ∈ frames, g = f) →
      multiMotionOf (checkLiveness L frames) = some 0 ∧
      multiVarianceOf (checkLiveness L frames) = some 0 ∧
      multiCombinedLe (checkLiveness L frames) (3 / 10) ∧
      (livenessVerdictOf (checkLiveness L frames) = some .SPOOF ∨
       livenessVerdictOf (checkLiveness L frames) = some .UNKNOWN) ∧
      livenessVerdictOf (checkLiveness L frames) ≠ some .LIVE := by
  intro L frames f hlen hall
  cases frames with
  | nil => simp [LIVENESS_MIN_FRAMES] at hlen
  | cons a t =>
    cases t with
    | nil => simp [LIVENESS_MIN_FRAMES] at hlen
    | cons b r =>
      have hcl : checkLiveness L (a :: b :: r)
          = checkMultiFrame L.freqScore ((a :: b :: r).map L.toGray) := rfl
      rw [hcl]
      apply checkMultiFrame_static L.freqScore _ (L.toGray f)
      · rw [List.length_map]
        exact Nat.not_lt.mpr hlen
      · intro x hx
        obtain ⟨y, hy, rfl⟩ := List.mem_map.mp hx
        rw [hall y hy]

/-- Witness for C6 : five identical copies of a concrete frame. -/
theorem static_burst_never_live_witness :
    multiMotionOf (checkLiveness Lspoof (List.replicate 5 img0)) = some 0 ∧
    multiVarianceOf (checkLiveness Lspoof (List.replicate 5 img0)) = some 0 ∧
    multiCombinedLe (checkLiveness Lspoof (List.replicate 5 img0)) (3 / 10) ∧
    (livenessVerdictOf (checkLiveness Lspoof (List.replicate 5 img0)) = some .SPOOF ∨
     livenessVerdictOf (checkLiveness Lspoof (List.replicate 5 img0)) = some .UNKNOWN) ∧
    livenessVerdictOf (checkLiveness Lspoof (List.replicate 5 img0)) ≠ some .LIVE :=
  static_burst_never_live Lspoof (List.replicate 5 img0) img0
    (by simp [LIVENESS_MIN_FRAMES])
    (fun g hg => List.eq_of_mem_replicate hg)

/-! ## Evaluation of the concrete liveness instances -/

lemma analyzeTexture_gray1 : analyzeTexture gray1 = 0 := by
  have h : lbpList gray1.pix gray1.rows gray1.cols = [] := by
    simp [lbpList, gray1]
  rw [analyzeTexture, h]
  show min (varQ [] / 500) 1 = 0
  rw [varQ, meanQ]
  norm_num

lemma checkLiveness_Lspoof_single :
    checkLiveness Lspoof [img0] = .ok (.SPOOF, .single ⟨0, 0, 0⟩) := by
  have h1 : checkLiveness Lspoof [img0]
      = .ok (checkSingleFrame Lspoof.freqScore (Lspoof.toGray img0)) := rfl
  rw [h1]
  show Except.ok (checkSingleFrame (fun _ => 0) gray1) = _
  rw [checkSingleFrame]
  simp only [analyzeTexture_gray1, LIVENESS_TEXTURE_THRESHOLD]
  norm_num

lemma checkLiveness_Llive_single :
    checkLiveness Llive [img0] = .ok (.LIVE, .single ⟨0, 1, 1 / 2⟩) := by
  have h1 : checkLiveness Llive [img0]
      = .ok (checkSingleFrame Llive.freqScore (Llive.toGray img0)) := rfl
  rw [h1]
  show Except.ok (checkSingleFrame (fun _ => 1) gray1) = _
  rw [checkSingleFrame]
  simp only [analyzeTexture_gray1, LIVENESS_TEXTURE_THRESHOLD]
  norm_num

/-- C1: when liveness checking is enabled and the liveness verdict on the
supplied frame(s) is spoof, `verify_face` short-circuits : the returned
result has verdict `SPOOF`, a null matched person id and null similarity,
and neither feature extraction nor database search is performed. -/
theorem spoof_short_circuit :
    ∀ (P : Pipeline) (L : LivenessParams) (img : Image)
      (frames : Option (List Image)) (db : DB),
      livenessVerdictOf (checkLiveness L (livenessInput img frames)) = some .SPOOF →
      verdictOf (verifyFace P L img frames db true) = some .SPOOF ∧
      idCandidateOf (verifyFace P L img frames db true) = some none ∧
      similarityOf (verifyFace P L img frames db true) = some none ∧
      extractionFlagOf (verifyFace P L img frames db true) = some false ∧
      searchFlagOf (verifyFace P L img frames db true) = some false := by
  intro P L img frames db h
  cases hc : checkLiveness L (livenessInput img frames) with
  | error e =>
    rw [hc] at h
    simp [livenessVerdictOf, Except.toOption] at h
  | ok p =>
    obtain ⟨lv, ld⟩ := p
    rw [hc] at h
    simp only [livenessVerdictOf, Except.toOption, Option.map_some',
      Option.some_inj] at h
    subst h
    simp only [verifyFace, if_true, hc]
    simp [verdictOf, idCandidateOf, similarityOf, extractionFlagOf,
      searchFlagOf, Except.toOption, createResponse]

/-- Witness for C1 : a concrete single-frame call classified as spoof. -/
theorem spoof_short_circuit_witness :
    verdictOf (verifyFace Pone Lspoof img0 none [] true) = some .SPOOF ∧
    idCandidateOf (verifyFace Pone Lspoof img0 none [] true) = some none ∧
    similarityOf (verifyFace Pone Lspoof img0 none [] true) = some none ∧
    extractionFlagOf (verifyFace Pone Lspoof img0 none [] true) = some false ∧
    searchFlagOf (verifyFace Pone Lspoof img0 none [] true) = some false :=
  spoof_short_circuit Pone Lspoof img0 none []
    (by rw [show livenessInput img0 none = [img0] from rfl,
          checkLiveness_Lspoof_single]; rfl)

/-! ## Helper lemmas : the degenerate max-confidence selection -/

lemma maxByConfidence_of_all_eq {c : ℚ} :
    ∀ (fs : List Face) (f : Face), f.confidence = c →
      (∀ g ∈ fs, g.confidence = c) → maxByConfidence f fs = f := by
  intro fs
  induction fs with
  | nil => intro f _ _; rfl
  | cons g gs ih =>
    intro f hf hg
    rw [maxByConfidence, List.foldl_cons]
    have hgc : g.confidence = c := hg g (List.mem_cons_self g gs)
    have hstep : (if g.confidence > f.confidence then g else f) = f := by
      rw [hf, hgc, if_neg (lt_irrefl c)]
    rw [hstep]
    exact ih f hf (fun x hx => hg x (List.mem_cons_of_mem g hx))

lemma afterLiveness_detConf {P : Pipeline} {img : Image} {db : DB}
    {lv : LivenessEnum} {ld : Option LivenessDetails}
    (h : (extractEmbedding P img).isSome = true) :
    (afterLiveness P img db lv ld).response.detectorConfidence = 0.85 := by
  obtain ⟨r, hr⟩ := Option.isSome_iff_exists.mp h
  obtain ⟨probe, meta⟩ := r
  have hconf : meta.confidence = 0.85 := (extract_meta_shape hr).1
  rw [afterLiveness, hr]
  cases hs : searchDatabase probe db with
  | none => simp [hs, createResponse, hconf]
  | some t =>
    obtain ⟨person, bs, pid⟩ := t
    simp [hs, createResponse, hconf]

/-- C10: every face returned by `detect_faces` carries the constant
confidence 0.85, so the highest-confidence selection in `extract_embedding`
degenerates to the first detected face, the extracted metadata always
records confidence 0.85, and `diagnostics.detector_confidence` is 0.85 in
every verification result in which a face was found. -/
theorem detector_confidence_constant :
    (∀ (P : Pipeline) (img : Image), ∀ face ∈ detectFaces P img,
       face.confidence = 0.85) ∧
    (∀ (P : Pipeline) (img : Image),
       (match detectFaces P img with
        | [] => none
        | f :: fs => some (maxByConfidence f fs)) = (detectFaces P img).head?) ∧
    (∀ (P : Pipeline) (img : Image),
       (extractEmbedding P img).map (fun r => r.2.confidence)
         = (extractEmbedding P img).map (fun _ => (0.85 : ℚ))) ∧
    (∀ (P : Pipeline) (L : LivenessParams) (img : Image)
       (frames : Option (List Image)) (db : DB) (check : Bool),
       extractionFlagOf (verifyFace P L img frames db check) = some true →
       (extractEmbedding P img).isSome = true →
       detectorConfidenceOf (verifyFace P L img frames db check) = some 0.85) := by
  refine ⟨fun P img face h => (detectFaces_mem_shape face h).1, ?_, ?_, ?_⟩
  · intro P img
    cases hd : detectFaces P img with
    | nil => rfl
    | cons f fs =>
      have hf : f.confidence = 0.85 :=
        (detectFaces_mem_shape f (hd ▸ List.mem_cons_self f fs)).1
      have hfs : ∀ g ∈ fs, g.confidence = 0.85 := fun g hg =>
        (detectFaces_mem_shape g (hd ▸ List.mem_cons_of_mem f hg)).1
      show some (maxByConfidence f fs) = (f :: fs).head?
      rw [maxByConfidence_of_all_eq fs f hf hfs]
      rfl
  · intro P img
    cases he : extractEmbedding P img with
    | none => rfl
    | some r =>
      simp only [Option.map_some', Option.some_inj]
      exact (extract_meta_shape he).1
  · intro P L img frames db check h1 h2
    cases check with
    | false =>
      have hv : verifyFace P L img frames db false
          = .ok (afterLiveness P img db .UNKNOWN none) := rfl
      rw [hv, detectorConfidenceOf]
      simp only [Except.toOption, Option.map_some', Option.some_inj]
      exact afterLiveness_detConf h2
    | true =>
      cases hc : checkLiveness L (livenessInput img frames) with
      | error e =>
        rw [verifyFace] at h1
        simp only [if_true, hc] at h1
        simp [extractionFlagOf, Except.toOption] at h1
      | ok p =>
        obtain ⟨lv, ld⟩ := p
        by_cases hlv : lv = LivenessEnum.SPOOF
        · subst hlv
          rw [verifyFace] at h1
          simp only [if_true, hc, if_pos rfl] at h1
          simp [extractionFlagOf, Except.toOption] at h1
        · have hv : verifyFace P L img frames db true
              = .ok (afterLiveness P img db lv (some ld)) := by
            rw [verifyFace]
            simp only [if_true, hc, if_neg hlv]
          rw [hv, detectorConfidenceOf]
          simp only [Except.toOption, Option.map_some', Option.some_inj]
          exact afterLiveness_detConf h2

/-! ## Evaluation of the concrete verification instance with a live frame -/

lemma verifyFace_PoneLlive_shape :
    verifyFace Pone Llive img0 none [] true
      = .ok (afterLiveness Pone img0 [] .LIVE (some (.single ⟨0, 1, 1 / 2⟩))) := by
  rw [verifyFace]
  rw [show livenessInput img0 none = [img0] from rfl, checkLiveness_Llive_single]
  simp

lemma extractionFlag_PoneLlive :
    extractionFlagOf (verifyFace Pone Llive img0 none [] true) = some true := by
  rw [verifyFace_PoneLlive_shape]
  obtain ⟨r, hr⟩ : ∃ r, extractEmbedding Pone img0 = some r := ⟨_, rfl⟩
  obtain ⟨probe, meta⟩ := r
  have hsearch : searchDatabase probe [] = none := rfl
  simp only [afterLiveness, hr]
  rw [hsearch]
  rfl

/-- Witness for C10 : a concrete verification in which a face is found
reports detector confidence 0.85. -/
theorem detector_confidence_constant_witness :
    detectorConfidenceOf (verifyFace Pone Llive img0 none [] true) = some 0.85 :=
  detector_confidence_constant.2.2.2 Pone Llive img0 none [] true
    extractionFlag_PoneLlive rfl

/-- C8 counterexample: with an empty store and a passing (`LIVE`) liveness
check but no detectable face, `verify_face` yields `NO_FACE_DETECTED`, not
`NOT_FOUND` — the claim "every call in which the liveness check passes
yields NOT_FOUND" fails at this input. -/
theorem empty_db_counterexample :
    verdictOf (verifyFace Pnone Llive img0 none [] true)
      = some .NO_FACE_DETECTED ∧
    livenessVerdictOf (checkLiveness Llive (livenessInput img0 none))
      = some .LIVE ∧
    VerdictEnum.NO_FACE_DETECTED ≠ VerdictEnum.NOT_FOUND := by
  refine ⟨?_, ?_, by decide⟩
  · have hshape : verifyFace Pnone Llive img0 none [] true
        = .ok (afterLiveness Pnone img0 [] .LIVE
            (some (.single ⟨0, 1, 1 / 2⟩))) := by
      rw [verifyFace]
      rw [show livenessInput img0 none = [img0] from rfl, checkLiveness_Llive_single]
      simp
    rw [hshape]
    have hext : extractEmbedding Pnone img0 = none := rfl
    simp only [afterLiveness, hext]
    rfl
  · rw [show livenessInput img0 none = [img0] from rfl, checkLiveness_Llive_single]
    rfl

/-- C8 (amended): with an empty active-person set, every `verify_face` call
that reaches the search stage — the liveness check passed and a face was
detected — yields `NOT_FOUND` with null matched person id and null
similarity. -/
theorem empty_db_not_found :
    ∀ (P : Pipeline) (L : LivenessParams) (img : Image)
      (frames : Option (List Image)) (db : DB) (check : Bool),
      db.filter (fun p => p.isActive) = [] →
      extractionFlagOf (verifyFace P L img frames db check) = some true →
      (extractEmbedding P img).isSome = true →
      verdictOf (verifyFace P L img frames db check) = some .NOT_FOUND ∧
      idCandidateOf (verifyFace P L img frames db check) = some none ∧
      similarityOf (verifyFace P L img frames db check) = some none := by
  intro P L img frames db check hfil h1 h2
  obtain ⟨r, hr⟩ := Option.isSome_iff_exists.mp h2
  obtain ⟨probe, meta⟩ := r
  have hsearch : searchDatabase probe db = none := by
    rw [searchDatabase, hfil]
  have hafter : ∀ lv ld,
      verdictOf (.ok (afterLiveness P img db lv ld)) = some .NOT_FOUND ∧
      idCandidateOf (.ok (afterLiveness P img db lv ld)) = some none ∧
      similarityOf (.ok (afterLiveness P img db lv ld)) = some none := by
    intro lv ld
    simp only [afterLiveness, hr]
    rw [hsearch]
    simp [verdictOf, idCandidateOf, similarityOf, Except.toOption, createResponse]
  cases check with
  | false => exact hafter .UNKNOWN none
  | true =>
    cases hc : checkLiveness L (livenessInput img frames) with
    | error e =>
      rw [verifyFace] at h1 ⊢
      simp only [if_true, hc] at h1
      simp [extractionFlagOf, Except.toOption] at h1
    | ok p =>
      obtain ⟨lv, ld⟩ := p
      by_cases hlv : lv = LivenessEnum.SPOOF
      · subst hlv
        rw [verifyFace] at h1
        simp only [if_true, hc, if_pos rfl] at h1
        simp [extractionFlagOf, Except.toOption] at h1
      · have hv : verifyFace P L img frames db true
            = .ok (afterLiveness P img db lv (some ld)) := by
          rw [verifyFace]
          simp only [if_true, hc, if_neg hlv]
        rw [hv]
        exact hafter lv (some ld)

/-- Witness for C8 (amended) : empty store, live single frame, one face. -/
theorem empty_db_not_found_witness :
    verdictOf (verifyFace Pone Llive img0 none [] true) = some .NOT_FOUND ∧
    idCandidateOf (verifyFace Pone Llive img0 none [] true) = some none ∧
    similarityOf (verifyFace Pone Llive img0 none [] true) = some none :=
  empty_db_not_found Pone Llive img0 none [] true rfl
    extractionFlag_PoneLlive rfl

/-- C2 counterexample: the duplicate check of `enroll_person` filters only
on `id_person`, not on `is_active` — enrolling an id held by an INACTIVE
person still fails with the duplicate error, contradicting "fails exactly
when the id belongs to an active person". -/
theorem enroll_duplicate_counterexample :
    enrollPerson Pone [img0] "x" "n" [inactiveX] = .error .duplicatePerson ∧
    [inactiveX].filter (fun p => p.isActive) = [] := by
  constructor
  · have hany : ([inactiveX] : DB).any (fun p => p.idPerson == "x") = true := by
      simp [inactiveX]
    rw [show enrollPerson Pone [img0] "x" "n" [inactiveX]
        = (if ([inactiveX] : DB).any (fun p => p.idPerson == "x")
           then .error .duplicatePerson
           else match enrollEmbeddings Pone [img0] "x" with
             | [] => .error .noFaces
             | embs => .ok ({ success := true, idPerson := "x", name := "n",
                              photoCount := embs.length },
                            [inactiveX] ++ [enrolledPersonOf Pone [img0] "x" "n"]))
      from rfl]
    rw [if_pos hany]
  · simp [inactiveX]

/-- C2 (amended): `enroll_person` fails with the duplicate error exactly
when the image list is nonempty and SOME existing person row — active or
not — carries the id; a successful enrollment only appends the new person
row (prior rows and their embeddings unchanged), and re-enrolling the same
id afterwards fails with the duplicate error. -/
theorem enroll_duplicate_iff :
    ∀ (P : Pipeline) (images : List Image) (idp name : String) (db : DB),
      (enrollPerson P images idp name db = .error .duplicatePerson ↔
        images ≠ [] ∧ db.any (fun p => p.idPerson == idp) = true) ∧
      (∀ db₂, enrollDbOf (enrollPerson P images idp name db) = some db₂ →
        db₂ = db ++ [enrolledPersonOf P images idp name]) ∧
      (∀ db₂, enrollDbOf (enrollPerson P images idp name db) = some db₂ →
        ∀ (P₂ : Pipeline) (images₂ : List Image) (name₂ : String),
          images₂ ≠ [] →
          enrollPerson P₂ images₂ idp name₂ db₂ = .error .duplicatePerson) := by
  intro P images idp name db
  cases images with
  | nil =>
    have hred : enrollPerson P [] idp name db = .error .noImages := rfl
    refine ⟨⟨fun h => ?_, fun h => absurd rfl h.1⟩, fun db₂ h => ?_, fun db₂ h => ?_⟩
    · rw [hred] at h; exact absurd h (by simp)
    · rw [hred] at h; simp [enrollDbOf, Except.toOption] at h
    · rw [hred] at h; simp [enrollDbOf, Except.toOption] at h
  | cons i is =>
    have hred : enrollPerson P (i :: is) idp name db =
        if db.any (fun p => p.idPerson == idp) then .error .duplicatePerson
        else match enrollEmbeddings P (i :: is) idp with
          | [] => .error .noFaces
          | embs => .ok ({ success := true, idPerson := idp, name := name,
                           photoCount := embs.length },
                         db ++ [enrolledPersonOf P (i :: is) idp name]) := rfl
    by_cases hdup : db.any (fun p => p.idPerson == idp) = true
    · rw [hred, if_pos hdup]
      refine ⟨⟨fun _ => ⟨List.cons_ne_nil i is, hdup⟩, fun _ => rfl⟩,
        fun db₂ h => ?_, fun db₂ h => ?_⟩
      · simp [enrollDbOf, Except.toOption] at h
      · simp [enrollDbOf, Except.toOption] at h
    · cases hemb : enrollEmbeddings P (i :: is) idp with
      | nil =>
        have hred2 : enrollPerson P (i :: is) idp name db = .error .noFaces := by
          rw [hred, if_neg hdup, hemb]
        refine ⟨⟨fun h => ?_, fun h => absurd h.2 hdup⟩,
          fun db₂ h => ?_, fun db₂ h => ?_⟩
        · rw [hred2] at h; exact absurd h (by simp)
        · rw [hred2] at h; simp [enrollDbOf, Except.toOption] at h
        · rw [hred2] at h; simp [enrollDbOf, Except.toOption] at h
      | cons e es =>
        have hred2 : enrollPerson P (i :: is) idp name db =
            .ok ({ success := true, idPerson := idp, name := name,
                   photoCount := (e :: es).length },
                 db ++ [enrolledPersonOf P (i :: is) idp name]) := by
          rw [hred, if_neg hdup, hemb]
        have hdb : ∀ db₂, enrollDbOf (enrollPerson P (i :: is) idp name db) = some db₂ →
            db₂ = db ++ [enrolledPersonOf P (i :: is) idp name] := by
          intro db₂ h
          rw [hred2] at h
          simp only [enrollDbOf, Except.toOption, Option.map_some',
            Option.some_inj] at h
          exact h.symm
        refine ⟨⟨fun h => ?_, fun h => absurd h.2 hdup⟩, hdb, fun db₂ h => ?_⟩
        · rw [hred2] at h; exact absurd h (by simp)
        · intro P₂ images₂ name₂ hne
          rw [hdb db₂ h]
          cases images₂ with
          | nil => exact absurd rfl hne
          | cons j js =>
            have hany : (db ++ [enrolledPersonOf P (i :: is) idp name]).any
                (fun p => p.idPerson == idp) = true := by
              rw [List.any_append]
              have : (enrolledPersonOf P (i :: is) idp name).idPerson == idp := by
                simp [enrolledPersonOf]
              simp [this]
            rw [show enrollPerson P₂ (j :: js) idp name₂
                  (db ++ [enrolledPersonOf P (i :: is) idp name]) =
                (if (db ++ [enrolledPersonOf P (i :: is) idp name]).any
                    (fun p => p.idPerson == idp)
                 then .error .duplicatePerson
                 else match enrollEmbeddings P₂ (j :: js) idp with
                   | [] => .error .noFaces
                   | embs => .ok ({ success := true, idPerson := idp, name := name₂,
                                    photoCount := embs.length },
                                  (db ++ [enrolledPersonOf P (i :: is) idp name])
                                    ++ [enrolledPersonOf P₂ (j :: js) idp name₂]))
              from rfl]
            rw [if_pos hany]

/-- Witness for C2 : a concrete enrollment of "x" into the empty store
followed by a second enrollment of "x", which fails with the duplicate
error. -/
theorem enroll_duplicate_iff_witness :
    enrollPerson Pone [img0] "x" "n2"
      ([] ++ [enrolledPersonOf Pone [img0] "x" "n"]) = .error .duplicatePerson :=
  (enroll_duplicate_iff Pone [img0] "x" "n" []).2.2
    ([] ++ [enrolledPersonOf Pone [img0] "x" "n"]) rfl Pone [img0] "n2" (by simp)

/-! ## Helper lemmas : the search loop computes the first-seen maximum -/

lemma clip01_nonneg (x : ℝ) : 0 ≤ clip01 x :=
  le_min (le_max_right _ 0) zero_le_one

lemma simToRef_nonneg (probe ref : List ℝ) : 0 ≤ simToRef probe ref :=
  clip01_nonneg _

lemma searchInner_eq_pairs (probe : List ℝ) (p : Person) (embs : List EmbRec)
    (st : SearchState) :
    searchInner probe p embs st
      = (embs.map (fun er => (p, er))).foldl (stepPair probe) st := by
  rw [List.foldl_map]
  rfl

lemma searchOuter_eq_pairs (probe : List ℝ) :
    ∀ (persons : List Person) (st : SearchState),
      searchOuter probe persons st = (pairsOf persons).foldl (stepPair probe) st := by
  intro persons
  induction persons with
  | nil => intro st; rfl
  | cons p ps ih =>
    intro st
    rw [searchOuter, List.foldl_cons]
    have h1 : ps.foldl (fun st p => searchInner probe p p.embeddings st)
        (searchInner probe p p.embeddings st)
        = searchOuter probe ps (searchInner probe p p.embeddings st) := rfl
    rw [h1, ih, searchInner_eq_pairs]
    have h2 : pairsOf (p :: ps)
        = (p.embeddings.map (fun er => (p, er))) ++ pairsOf ps := by
      rw [pairsOf, pairsOf, List.flatMap_cons]
    rw [h2, List.foldl_append]

lemma foldl_stepPair_eq_best (probe : List ℝ) :
    ∀ (rest : List (Person × EmbRec)) (p0 : Person) (s0 : ℝ) (pid0 : Option String),
      rest.foldl (stepPair probe) ⟨some p0, s0, pid0⟩ =
        match bestOfPairs probe rest with
        | none => ⟨some p0, s0, pid0⟩
        | some (p', s', pid') =>
          if s' > s0 then ⟨some p', s', pid'⟩ else ⟨some p0, s0, pid0⟩ := by
  intro rest
  induction rest with
  | nil => intros; rfl
  | cons pr rest ih =>
    intro p0 s0 pid0
    obtain ⟨p, er⟩ := pr
    rw [List.foldl_cons]
    by_cases hs : simToRef probe er.embedding > s0
    · rw [show stepPair probe ⟨some p0, s0, pid0⟩ (p, er)
          = ⟨some p, simToRef probe er.embedding, some er.photoId⟩ from by
        rw [stepPair, if_pos hs]]
      rw [ih p (simToRef probe er.embedding) (some er.photoId)]
      cases hbo : bestOfPairs probe rest with
      | none => simp [bestOfPairs, hbo, hs]
      | some t =>
        obtain ⟨p', s', pid'⟩ := t
        by_cases hss : s' > simToRef probe er.embedding
        · simp only [bestOfPairs, hbo, if_pos hss, if_pos (hs.trans hss)]
        · simp only [bestOfPairs, hbo, if_neg hss, if_pos hs]
    · rw [show stepPair probe ⟨some p0, s0, pid0⟩ (p, er)
          = ⟨some p0, s0, pid0⟩ from by rw [stepPair, if_neg hs]]
      rw [ih p0 s0 pid0]
      cases hbo : bestOfPairs probe rest with
      | none => simp [bestOfPairs, hbo, hs]
      | some t =>
        obtain ⟨p', s', pid'⟩ := t
        by_cases hss : s' > simToRef probe er.embedding
        · simp only [bestOfPairs, hbo, if_pos hss]
        · have hns : ¬ (s' > s0) :=
            not_lt.mpr ((not_lt.mp hss).trans (not_lt.mp hs))
          simp only [bestOfPairs, hbo, if_neg hss, if_neg hs, if_neg hns]

/-- C3 (amended): `_search_database` implements the spec's `find_best_match`
contract over the (active person, embedding) PAIR list : `None` exactly when
no active person has any stored embedding, otherwise the pair achieving the
single maximum similarity with ties broken by first-seen order. -/
theorem searchDatabase_eq_findBestMatchSpec :
    ∀ (probe : List ℝ) (db : DB),
      searchDatabase probe db
        = findBestMatchSpec probe (db.filter (fun p => p.isActive)) := by
  intro probe db
  cases hfil : db.filter (fun p => p.isActive) with
  | nil =>
    simp only [searchDatabase, hfil]
    rfl
  | cons p ps =>
    simp only [searchDatabase, hfil]
    rw [searchOuter_eq_pairs, findBestMatchSpec]
    cases hpairs : pairsOf (p :: ps) with
    | nil => rfl
    | cons pr rest =>
      obtain ⟨q, er⟩ := pr
      rw [List.foldl_cons]
      have hs0 : simToRef probe er.embedding > (-1 : ℝ) :=
        lt_of_lt_of_le (by norm_num) (simToRef_nonneg probe er.embedding)
      rw [show stepPair probe ⟨none, -1, none⟩ (q, er)
          = ⟨some q, simToRef probe er.embedding, some er.photoId⟩ from by
        rw [stepPair, if_pos hs0]]
      rw [foldl_stepPair_eq_best]
      cases hbo : bestOfPairs probe rest with
      | none => simp [bestOfPairs, hbo]
      | some t =>
        obtain ⟨p', s', pid'⟩ := t
        by_cases hss : s' > simToRef probe er.embedding
        · simp only [bestOfPairs, hbo, if_pos hss]
        · simp only [bestOfPairs, hbo, if_neg hss]

/-- C3 counterexample: an active person with no stored embeddings — the
candidate person set is nonempty, yet `_search_database` returns `None`,
contradicting "returns None (only) if the candidate set of active persons
is empty". -/
theorem searchDatabase_counterexample :
    searchDatabase [(0 : ℝ)] [activeNoEmb] = none ∧
    [activeNoEmb].filter (fun p => p.isActive) = [activeNoEmb] := by
  constructor
  · rfl
  · rfl

end FaceId
